import Mathlib

set_option maxHeartbeats 1000000

/-!
Shallow embedding of the Analysis-to-Payslip transformation engine
(the selector module building a `FicheDePaie` from an `Analysis` and
localized `FlatRules`).

Modelling conventions:
- JS numbers are modelled as exact integers (`Int`): the engine only adds,
  subtracts and zero-tests amounts, and performs no rounding.
- JS `undefined`/missing fields are modelled by `Option.none`.
- Thrown JS exceptions are modelled by `Except Err`; the monadic bind order
  follows the evaluation order of the source.
- French accented identifiers of the source are transliterated to ASCII
  (`regleLocaliseeSelector` for the selector over localized flat rules,
  `dûPar` becomes `duPar`, etc.); string literals keep their exact spelling.
-/

/-- The seven legal branches, in source declaration order
(`santé`, `accidents du travail / maladies professionnelles`, `retraite`,
`famille`, `assurance chômage`, `logement`, `autres`). -/
inductive Branche
  | sante
  | accidentsDuTravail
  | retraite
  | famille
  | assuranceChomage
  | logement
  | autres
deriving DecidableEq, Repr

/-- Source `COTISATION_BRANCHE_ORDER`: the fixed branch ordering from the source. -/
def COTISATION_BRANCHE_ORDER : List Branche :=
  [Branche.sante,
   Branche.accidentsDuTravail,
   Branche.retraite,
   Branche.famille,
   Branche.assuranceChomage,
   Branche.logement,
   Branche.autres]

/-- Source `MontantPartagé`: an amount split between employee and employer shares. -/
structure MontantPartage where
  partSalariale : Int
  partPatronale : Int
deriving DecidableEq, Repr

/-- Source `Règle`: a resolved rule, `{nom, lien}`. -/
structure Regle where
  nom : String
  lien : String
deriving DecidableEq, Repr

/-- Source `RègleAvecMontant`: a resolved rule together with a single amount. -/
structure RegleAvecMontant where
  nom : String
  lien : String
  montant : Int
deriving DecidableEq, Repr

/-- Source `Cotisation`: one social-contribution line. -/
structure Cotisation where
  nom : String
  lien : String
  branche : Branche
  montant : MontantPartage
deriving DecidableEq, Repr

/-- The payer indicator carried by a raw variable (the `dû par` values
`salarié | employeur`). -/
inductive DuPar
  | salarie
  | employeur
deriving DecidableEq, Repr

/-- A `{dû par?, branche?}` record as it appears at the four fallback path
targets of a raw variable; both fields may be absent (JS `undefined`). -/
structure DuParBranche where
  duPar : Option DuPar
  branche : Option Branche
deriving DecidableEq, Repr

/-- The `explanation` subtree of a raw variable, holding the
`explanation.cotisation` and `explanation.taxe` path targets. -/
structure ExplanationNode where
  cotisation : DuParBranche
  taxe : DuParBranche
deriving DecidableEq, Repr

/-- Source `VariableWithCotisation`: a raw contribution-bearing variable. The four
fallback paths `cotisation`, `taxe`, `explanation.cotisation`,
`explanation.taxe` are materialized as records of optional fields (an absent
intermediate object and an absent leaf are indistinguishable through ramda
`path`, which yields `undefined` for both). -/
structure VariableWithCotisation where
  dottedName : String
  nodeValue : Int
  cotisation : DuParBranche
  taxe : DuParBranche
  explanation : ExplanationNode
deriving DecidableEq, Repr

/-- An evaluated node of the analysis cache: its numeric value (possibly
absent/falsy) and the list of child variables found at the fixed path
`explanation.formule.explanation.explanation` (`none` when any step of the
path is missing, as with ramda `pathOr`). -/
structure EvaluatedNode where
  nodeValue : Option Int
  formuleExplanations : Option (List VariableWithCotisation)
deriving DecidableEq, Repr

/-- A requested target of the analysis: `{dottedName, nodeValue}`. -/
structure Target where
  dottedName : String
  nodeValue : Option Int
deriving DecidableEq, Repr

/-- The `Analysis` input: `cache` (dotted name to evaluated node, modelled as
an association list) and `targets`. -/
structure Analysis where
  cache : List (String × EvaluatedNode)
  targets : List Target
deriving DecidableEq, Repr

/-- A rule of the catalog, as consumed by the selector: `titre || nom` gives
the displayed label. -/
structure FlatRule where
  nom : String
  titre : Option String
deriving DecidableEq, Repr

/-- The localized `FlatRules` catalog, modelled as an association list from
dotted name to rule. -/
def FlatRules : Type := List (String × FlatRule)

/-- The error kinds of the engine. `typeError` models a JS `TypeError`
(reading a property of `undefined`), distinct from every deliberately raised
error; `ruleNotFound` is the catalog-present-but-rule-unknown error the spec
describes. -/
inductive Err
  | missingRuleCatalog
  | ruleNotFound (dottedName : String)
  | typeError (at_ : String)
  | missingAnalysis
  | ruleNotFoundInAnalysis (dottedName : String)
deriving DecidableEq, Repr

/-- Modelled from the spec: `findRuleByDottedName` (imported from
`Engine/rules`, not part of the reviewed sources) is the Rule Catalog lookup
capability, `resolve(dottedName)`; it yields the rule when the identifier is
known and `undefined` otherwise. -/
def findRuleByDottedName (rules : FlatRules) (dottedName : String) :
    Option FlatRule :=
  (rules.find? (fun p => p.1 == dottedName)).map Prod.snd

/-- Modelled from the spec: `encodeRuleName` (imported from `Engine/rules`,
not part of the reviewed sources) derives the URL fragment of a rule from its
dotted name; the spec constrains no particular encoding, so it is modelled as
the identity. -/
def encodeRuleName (dottedName : String) : String := dottedName

/-- JS `a || b` on an optional string (used for `localizedRule.titre ||
localizedRule.nom`): an absent or empty string falls back to `b`. -/
def jsStrOr (a : Option String) (b : String) : String :=
  match a with
  | none => b
  | some s => if s == "" then b else s

/-- JS `a || b` on an optional number (used for `rule.nodeValue || 0`): an
absent or zero (falsy) value falls back to `b`. -/
def jsNumOr (a : Option Int) (b : Int) : Int :=
  match a with
  | none => b
  | some x => if x == 0 then b else x

/-- Source `BLANK_COTISATION`: the zero contribution used to seed merges. -/
def BLANK_COTISATION : Cotisation :=
  { montant := { partPatronale := 0, partSalariale := 0 }
    nom := "ERROR_SHOULD_BE_INSTANCIATED"
    lien := "ERROR_SHOULD_BE_INSTANCIATED"
    branche := Branche.autres }

/-- Source `duParSelector`: first defined value among the four `dû par` fallback
paths, in source order (`filter(Boolean)[0]`; the possible values are
non-empty strings, hence truthy). -/
def duParSelector (variable_ : VariableWithCotisation) : Option DuPar :=
  ([variable_.cotisation.duPar,
    variable_.taxe.duPar,
    variable_.explanation.cotisation.duPar,
    variable_.explanation.taxe.duPar].filterMap id).head?

/-- Source `brancheSelector`: first defined value among the four `branche` fallback
paths, in source order, defaulting to `autres`
(`filter(Boolean)[0] || autres`; branch names are non-empty strings, hence
truthy). -/
def brancheSelector (variable_ : VariableWithCotisation) : Branche :=
  (([variable_.cotisation.branche,
     variable_.taxe.branche,
     variable_.explanation.cotisation.branche,
     variable_.explanation.taxe.branche].filterMap id).head?).getD
    Branche.autres

/-- Source `mergeCotisations = mergeWithKey((key, a, b) => key === montant ?
mergeWith(add, a, b) : b)`: `montant` is merged by per-key addition, every
other key is overwritten by the right operand. Both operands are full
`Cotisation` records at every use site (a `montant` written with a single
share key is completed with the zero of the blank record for the other key by
`mergeWith(add, ...)`, which keeps keys present in only one operand). -/
def mergeCotisations (a b : Cotisation) : Cotisation :=
  { nom := b.nom
    lien := b.lien
    branche := b.branche
    montant :=
      { partSalariale := a.montant.partSalariale + b.montant.partSalariale
        partPatronale := a.montant.partPatronale + b.montant.partPatronale } }

/-- Source `règleLocaliséeSelector`: fails when the catalog is absent; then looks the
rule up. The source re-checks `!localizedFlatRules` (not `!localizedRule`)
after the lookup — a copy-paste slip, so that check is unreachable here and no
`ruleNotFound` error is ever raised; when the lookup failed, reading
`localizedRule.titre` is a JS `TypeError`. -/
def regleLocaliseeSelector (localizedFlatRules : Option FlatRules)
    (dottedName : String) : Except Err Regle :=
  match localizedFlatRules with
  | none => Except.error Err.missingRuleCatalog
  | some rules =>
    let localizedRule := findRuleByDottedName rules dottedName
    match localizedRule with
    | none => Except.error (Err.typeError dottedName)
    | some r =>
      Except.ok
        { nom := jsStrOr r.titre r.nom
          lien := "/règle/" ++ encodeRuleName dottedName }

/-- Source `variableToCotisation`: localizes the rule, then merges the blank
contribution with the record built from the variable; the `montant` literal
of the source holds the single key selected by
`duParSelector(variable) === salarié, partSalariale versus partPatronale`,
the other share being supplied as 0 by the blank operand of the merge. -/
def variableToCotisation (loc : String → Except Err Regle)
    (variable_ : VariableWithCotisation) : Except Err Cotisation := do
  let regle ← loc variable_.dottedName
  pure (mergeCotisations BLANK_COTISATION
    { nom := regle.nom
      lien := regle.lien
      branche := brancheSelector variable_
      montant :=
        if duParSelector variable_ = some DuPar.salarie then
          { partSalariale := variable_.nodeValue, partPatronale := 0 }
        else
          { partSalariale := 0, partPatronale := variable_.nodeValue } })

/-- One step of the `reduce` building `cotisationsMap` in `groupByBranche`:
`{...acc, [c.branche]: [c, ...(acc[c.branche] || [])]}`. The JS object is
modelled as a function `Branche → Option (List Cotisation)`; a key absent
from the object is `none`. -/
def brancheMapStep (acc : Branche → Option (List Cotisation))
    (c : Cotisation) : Branche → Option (List Cotisation) :=
  fun b =>
    if b = c.branche then some (c :: ((acc c.branche).getD [])) else acc b

/-- The `cotisationsMap` object of `groupByBranche`, built by `reduce` from
the empty object. -/
def brancheMap (cotisations : List Cotisation) :
    Branche → Option (List Cotisation) :=
  cotisations.foldl brancheMapStep (fun _ => none)

/-- Source `groupByBranche`: pairs every branch of `COTISATION_BRANCHE_ORDER`, in
order, with `cotisationsMap[branche]` — which is JS `undefined` (`none`), not
an empty array, for a branch that received no contribution. -/
def groupByBranche (cotisations : List Cotisation) :
    List (Branche × Option (List Cotisation)) :=
  let cotisationsMap := brancheMap cotisations
  COTISATION_BRANCHE_ORDER.map (fun branche => (branche, cotisationsMap branche))

/-- Cache lookup `analysis.cache[name]`. -/
def lookupCache (analysis : Analysis) (name : String) : Option EvaluatedNode :=
  (analysis.cache.find? (fun p => p.1 == name)).map Prod.snd

/-- The two fixed aggregate names read by the extractor. -/
def EXTRACTED_AGGREGATES : List String :=
  ["contrat salarié . cotisations salariales",
   "contrat salarié . cotisations patronales"]

/-- Source `pathOr([], [explanation, formule, explanation, explanation])`
applied to an optional cache node: an absent node or an absent path step
yields the empty list. -/
def formuleVariables (node : Option EvaluatedNode) :
    List VariableWithCotisation :=
  match node with
  | none => []
  | some n => n.formuleExplanations.getD []

/-- The extraction stage of `analysisToCotisations`: reads the two aggregate
nodes from the cache, descends the fixed explanation path on each, and
concatenates (`reduce(concat, [])`). -/
def extractVariables (analysis : Analysis) : List VariableWithCotisation :=
  ((EXTRACTED_AGGREGATES.map (fun name => lookupCache analysis name)).map
    formuleVariables).foldl (fun a b => a ++ b) []

/-- One step of key collection for ramda `groupBy`: JS object keys appear in
insertion order, i.e. order of first occurrence. -/
def insertKey (acc : List String) (k : String) : List String :=
  if k ∈ acc then acc else acc ++ [k]

/-- The keys of the ramda `groupBy(prop(dottedName))` object, in first
occurrence order. -/
def firstOccKeys (names : List String) : List String :=
  names.foldl insertKey []

/-- Source `groupBy(prop(dottedName))` followed by `values`: the groups, in first
occurrence order of their dotted name, each group keeping the original
relative order of its elements. -/
def groupByDottedName (vars : List VariableWithCotisation) :
    List (List VariableWithCotisation) :=
  (firstOccKeys (vars.map (fun v => v.dottedName))).map
    (fun k => vars.filter (fun v => v.dottedName == k))

/-- The first stages of the `analysisToCotisations` pipe: group the extracted
variables by dotted name, normalize every variable of a group, and merge each
group by a left-to-right fold seeded with the blank contribution. Map order
follows the source evaluation order, so the first failing localization aborts
the pipeline. -/
def mergedCotisations (analysis : Analysis)
    (loc : String → Except Err Regle) : Except Err (List Cotisation) :=
  (groupByDottedName (extractVariables analysis)).mapM (fun group => do
    let cs ← group.mapM (variableToCotisation loc)
    pure (cs.foldl mergeCotisations BLANK_COTISATION))

/-- Source `analysisToCotisations`: extract, group by dotted name, normalize and
merge (`mergedCotisations`), filter out contributions with both shares 0,
group by branch. -/
def analysisToCotisations (analysis : Analysis)
    (loc : String → Except Err Regle) :
    Except Err (List (Branche × Option (List Cotisation))) := do
  let merged ← mergedCotisations analysis loc
  let nonZero := merged.filter (fun cotisation =>
    decide (cotisation.montant.partPatronale ≠ 0 ∨
      cotisation.montant.partSalariale ≠ 0))
  pure (groupByBranche nonZero)

/-- Source `règleAvecMontantSelector`: fails when the analysis is absent; finds the
node in the cache, falling back to `analysis.targets` (`cache[dottedName] ||
targets.find(...)` — a cached node is an object, hence truthy); fails when
neither has it; otherwise localizes the rule and attaches
`rule.nodeValue || 0`. -/
def regleAvecMontantSelector (analysis : Option Analysis)
    (loc : String → Except Err Regle) (dottedName : String) :
    Except Err RegleAvecMontant :=
  match analysis with
  | none => Except.error Err.missingAnalysis
  | some a =>
    let rule : Option (Option Int) :=
      match lookupCache a dottedName with
      | some node => some node.nodeValue
      | none =>
        (a.targets.find? (fun target => target.dottedName == dottedName)).map
          (fun target => target.nodeValue)
    match rule with
    | none => Except.error (Err.ruleNotFoundInAnalysis dottedName)
    | some nodeValue => do
      let regle ← loc dottedName
      pure { nom := regle.nom, lien := regle.lien,
             montant := jsNumOr nodeValue 0 }

/-- Source `FicheDePaie`: the assembled payslip. -/
structure FicheDePaie where
  salaireBrut : RegleAvecMontant
  avantagesEnNature : RegleAvecMontant
  salaireDeBase : RegleAvecMontant
  reductionsDeCotisations : RegleAvecMontant
  cotisations : List (Branche × Option (List Cotisation))
  totalCotisations : MontantPartage
  salaireCharge : RegleAvecMontant
  salaireNet : RegleAvecMontant
  salaireNetImposable : RegleAvecMontant
  salaireNetAPayer : RegleAvecMontant
deriving DecidableEq, Repr

/-- Source `analysisToFicheDePaie` (the `buildPayslip` entry point): builds the
branch-grouped contributions, resolves the named amounts, computes
`totalCotisations = {partPatronale: patronales - réductions, partSalariale:
salariales}`. The bind order is the source evaluation order: `cotisations`
first, then the three aggregate amounts, then the remaining named fields in
object-literal order. -/
def analysisToFicheDePaie (analysis : Analysis)
    (flatRules : Option FlatRules) : Except Err FicheDePaie := do
  let regleLocalisee := regleLocaliseeSelector flatRules
  let regleAvecMontant := regleAvecMontantSelector (some analysis) regleLocalisee
  let cotisations ← analysisToCotisations analysis regleLocalisee
  let cotisationsSalariales ←
    regleAvecMontant "contrat salarié . cotisations salariales"
  let cotisationsPatronales ←
    regleAvecMontant "contrat salarié . cotisations patronales"
  let reductionsDeCotisations ←
    regleAvecMontant "contrat salarié . réductions de cotisations"
  let totalCotisations : MontantPartage :=
    { partPatronale :=
        cotisationsPatronales.montant - reductionsDeCotisations.montant
      partSalariale := cotisationsSalariales.montant }
  let salaireDeBase ← regleAvecMontant "contrat salarié . salaire . brut de base"
  let avantagesEnNature ←
    regleAvecMontant "contrat salarié . avantages en nature . montant"
  let salaireBrut ← regleAvecMontant "contrat salarié . salaire . brut"
  let salaireCharge ← regleAvecMontant "contrat salarié . salaire . total"
  let salaireNet ← regleAvecMontant "contrat salarié . salaire . net"
  let salaireNetImposable ←
    regleAvecMontant "contrat salarié . salaire . net imposable"
  let salaireNetAPayer ←
    regleAvecMontant "contrat salarié . salaire . net à payer"
  pure { salaireBrut := salaireBrut
         avantagesEnNature := avantagesEnNature
         salaireDeBase := salaireDeBase
         reductionsDeCotisations := reductionsDeCotisations
         cotisations := cotisations
         totalCotisations := totalCotisations
         salaireCharge := salaireCharge
         salaireNet := salaireNet
         salaireNetImposable := salaireNetImposable
         salaireNetAPayer := salaireNetAPayer }

/-! ## Helper lemmas -/

lemma foldl_merge_partSalariale (g : List Cotisation) (init : Cotisation) :
    (g.foldl mergeCotisations init).montant.partSalariale =
      init.montant.partSalariale +
        (g.map (fun c => c.montant.partSalariale)).sum := by
  induction g generalizing init with
  | nil => simp
  | cons c g ih =>
    simp only [List.foldl_cons, List.map_cons, List.sum_cons, ih,
      mergeCotisations]
    ring

lemma foldl_merge_partPatronale (g : List Cotisation) (init : Cotisation) :
    (g.foldl mergeCotisations init).montant.partPatronale =
      init.montant.partPatronale +
        (g.map (fun c => c.montant.partPatronale)).sum := by
  induction g generalizing init with
  | nil => simp
  | cons c g ih =>
    simp only [List.foldl_cons, List.map_cons, List.sum_cons, ih,
      mergeCotisations]
    ring

lemma foldl_merge_last (g : List Cotisation) (init : Cotisation)
    (h : g ≠ []) :
    (g.foldl mergeCotisations init).nom = (g.getLast h).nom ∧
    (g.foldl mergeCotisations init).lien = (g.getLast h).lien ∧
    (g.foldl mergeCotisations init).branche = (g.getLast h).branche := by
  induction g generalizing init with
  | nil => exact absurd rfl h
  | cons c g ih =>
    cases g with
    | nil => simp [mergeCotisations]
    | cons c2 g2 =>
      have hne : c2 :: g2 ≠ [] := by simp
      simpa [List.getLast_cons hne] using ih (mergeCotisations init c) hne

lemma brancheMap_foldl (cs : List Cotisation)
    (acc : Branche → Option (List Cotisation)) (b : Branche) :
    ((cs.foldl brancheMapStep acc) b).getD [] =
      (cs.filter (fun c => c.branche == b)).reverse ++ ((acc b).getD []) := by
  induction cs generalizing acc with
  | nil => simp
  | cons c cs ih =>
    simp only [List.foldl_cons, ih, List.filter_cons]
    by_cases hb : c.branche = b
    · subst hb
      simp [brancheMapStep]
    · have hbne : (c.branche == b) = false := by
        simp [hb]
      simp only [hbne, Bool.false_eq_true, if_false]
      have : brancheMapStep acc c b = acc b := by
        simp [brancheMapStep, Ne.symm hb]
      rw [this]

lemma groupByBranche_bucket (cs : List Cotisation) (b : Branche)
    (bucket : Option (List Cotisation))
    (h : (b, bucket) ∈ groupByBranche cs) :
    bucket = brancheMap cs b := by
  simp only [groupByBranche, List.mem_map] at h
  obtain ⟨b2, _, heq⟩ := h
  obtain ⟨h1, h2⟩ := Prod.mk.injEq .. ▸ heq
  exact h1 ▸ h2.symm

/-! ## Claim theorems -/

/-- C10: within each branch bucket of `groupByBranche`, the contributions
appear in the reverse of their order in the input list (each one is prepended
to the accumulating bucket of its branch). -/
theorem C10_groupByBranche_reverses (cs : List Cotisation) (b : Branche)
    (bucket : Option (List Cotisation))
    (h : (b, bucket) ∈ groupByBranche cs) :
    bucket.getD [] = (cs.filter (fun c => c.branche == b)).reverse := by
  rw [groupByBranche_bucket cs b bucket h]
  simpa using brancheMap_foldl cs (fun _ => none) b

/-- C3: the merge of a group of normalized contributions folds left-to-right
from the zero contribution; each share of the result is the independent sum
of that share over the group, while `nom`, `lien` and `branche` are those of
the last element of the group. -/
theorem C3_merge_additive_last_metadata (g : List Cotisation) :
    ((g.foldl mergeCotisations BLANK_COTISATION).montant.partSalariale =
      (g.map (fun c => c.montant.partSalariale)).sum) ∧
    ((g.foldl mergeCotisations BLANK_COTISATION).montant.partPatronale =
      (g.map (fun c => c.montant.partPatronale)).sum) ∧
    ∀ (h : g ≠ []),
      (g.foldl mergeCotisations BLANK_COTISATION).nom = (g.getLast h).nom ∧
      (g.foldl mergeCotisations BLANK_COTISATION).lien = (g.getLast h).lien ∧
      (g.foldl mergeCotisations BLANK_COTISATION).branche =
        (g.getLast h).branche := by
  refine ⟨?_, ?_, fun h => foldl_merge_last g BLANK_COTISATION h⟩
  · simpa [BLANK_COTISATION] using foldl_merge_partSalariale g BLANK_COTISATION
  · simpa [BLANK_COTISATION] using foldl_merge_partPatronale g BLANK_COTISATION

/-- A contribution worth 10 on the employee side only, as produced by
normalizing a raw variable with payer `salarié`. -/
def wCotSal : Cotisation :=
  { nom := "Cotis 1", lien := "/règle/c1", branche := Branche.retraite,
    montant := { partSalariale := 10, partPatronale := 0 } }

/-- A contribution worth 7 on the employer side only, same rule. -/
def wCotPat : Cotisation :=
  { nom := "Cotis 1", lien := "/règle/c1", branche := Branche.retraite,
    montant := { partSalariale := 0, partPatronale := 7 } }

theorem C3_merge_additive_last_metadata_witness :
    (([wCotSal, wCotPat].foldl mergeCotisations
        BLANK_COTISATION).montant.partSalariale = 10) ∧
    (([wCotSal, wCotPat].foldl mergeCotisations
        BLANK_COTISATION).montant.partPatronale = 7) ∧
    ([wCotSal, wCotPat].foldl mergeCotisations BLANK_COTISATION).nom =
      "Cotis 1" := by
  have h := C3_merge_additive_last_metadata [wCotSal, wCotPat]
  refine ⟨h.1.trans (by decide), h.2.1.trans (by decide), ?_⟩
  exact ((h.2.2 (by decide)).1).trans (by decide)

/-- C4: every contribution found in any branch bucket of the output of
`analysisToCotisations` has a non-zero employee or employer share (the
both-zero ones are filtered out before branch grouping). -/
theorem C4_no_zero_contribution (analysis : Analysis)
    (loc : String → Except Err Regle)
    (result : List (Branche × Option (List Cotisation)))
    (h : analysisToCotisations analysis loc = Except.ok result)
    (b : Branche) (bucket : Option (List Cotisation))
    (hb : (b, bucket) ∈ result) (c : Cotisation)
    (hc : c ∈ bucket.getD []) :
    c.montant.partPatronale ≠ 0 ∨ c.montant.partSalariale ≠ 0 := by
  simp only [analysisToCotisations] at h
  cases hm : mergedCotisations analysis loc with
  | error e =>
    rw [hm] at h
    exact absurd h (by simp [Bind.bind, Except.bind])
  | ok merged =>
    rw [hm] at h
    simp only [Bind.bind, Except.bind, pure, Except.pure, Except.ok.injEq] at h
    subst h
    have hbb := groupByBranche_bucket _ _ _ hb
    have hrev : bucket.getD [] =
        ((merged.filter (fun cotisation =>
          decide (cotisation.montant.partPatronale ≠ 0 ∨
            cotisation.montant.partSalariale ≠ 0))).filter
          (fun c => c.branche == b)).reverse := by
      rw [hbb, brancheMap, brancheMap_foldl]
      simp only [Option.getD_none, List.append_nil]
    rw [hrev] at hc
    have h1 := (List.mem_filter.mp (List.mem_reverse.mp hc)).1
    simpa using List.of_mem_filter h1

/-- A raw variable: rule `c1`, 10, payer `salarié`, branch `retraite`. -/
def wVarSal : VariableWithCotisation :=
  { dottedName := "c1", nodeValue := 10,
    cotisation := { duPar := some DuPar.salarie,
                    branche := some Branche.retraite },
    taxe := { duPar := none, branche := none },
    explanation := { cotisation := { duPar := none, branche := none },
                     taxe := { duPar := none, branche := none } } }

/-- A raw variable: rule `c1`, 7, payer `employeur`, branch `retraite`. -/
def wVarPat : VariableWithCotisation :=
  { dottedName := "c1", nodeValue := 7,
    cotisation := { duPar := some DuPar.employeur,
                    branche := some Branche.retraite },
    taxe := { duPar := none, branche := none },
    explanation := { cotisation := { duPar := none, branche := none },
                     taxe := { duPar := none, branche := none } } }

/-- A one-rule catalog for the fixtures. -/
def wRulesSmall : FlatRules := [("c1", { nom := "Cotis 1", titre := none })]

/-- An analysis whose two contribution aggregates carry one raw variable
each. -/
def wAnalysisSmall : Analysis :=
  { cache := [("contrat salarié . cotisations salariales",
               { nodeValue := some 10, formuleExplanations := some [wVarSal] }),
              ("contrat salarié . cotisations patronales",
               { nodeValue := some 7, formuleExplanations := some [wVarPat] })],
    targets := [] }

/-- The contribution obtained by merging the normalizations of `wVarSal` and
`wVarPat`. -/
def wCotMerged : Cotisation :=
  { nom := "Cotis 1", lien := "/règle/c1", branche := Branche.retraite,
    montant := { partSalariale := 10, partPatronale := 7 } }

/-- The branch-grouped output of `analysisToCotisations` on
`wAnalysisSmall`. -/
def wResult : List (Branche × Option (List Cotisation)) :=
  [(Branche.sante, none),
   (Branche.accidentsDuTravail, none),
   (Branche.retraite, some [wCotMerged]),
   (Branche.famille, none),
   (Branche.assuranceChomage, none),
   (Branche.logement, none),
   (Branche.autres, none)]

theorem C4_no_zero_contribution_witness :
    wCotMerged.montant.partPatronale ≠ 0 ∨
      wCotMerged.montant.partSalariale ≠ 0 :=
  C4_no_zero_contribution wAnalysisSmall
    (regleLocaliseeSelector (some wRulesSmall)) wResult (by rfl)
    Branche.retraite (some [wCotMerged]) (by decide) wCotMerged (by decide)

theorem C10_groupByBranche_reverses_witness :
    (some [wCotPat, wCotSal] : Option (List Cotisation)).getD [] =
      ([wCotSal, wCotPat].filter
        (fun c => c.branche == Branche.retraite)).reverse :=
  C10_groupByBranche_reverses [wCotSal, wCotPat] Branche.retraite
    (some [wCotPat, wCotSal]) (by decide)

/-- C2: `groupByBranche` always emits the 7 branches of
`COTISATION_BRANCHE_ORDER`, in order — but, evaluated on an analysis with
zero contributions, every branch is paired with `none` (JS `undefined`,
`cotisationsMap[branche]` for a key the reduce never wrote), not with an
empty contribution list as the claim and the declared
`Cotisations = Array<[Branche, Array<Cotisation>]>` type state. -/
theorem C2_seven_buckets_undefined_eval :
    (analysisToCotisations { cache := [], targets := [] }
        (regleLocaliseeSelector (some ([] : FlatRules))) =
      Except.ok [(Branche.sante, none), (Branche.accidentsDuTravail, none),
        (Branche.retraite, none), (Branche.famille, none),
        (Branche.assuranceChomage, none), (Branche.logement, none),
        (Branche.autres, none)]) ∧
    (∀ cs : List Cotisation,
      (groupByBranche cs).map Prod.fst = COTISATION_BRANCHE_ORDER ∧
      (groupByBranche cs).length = 7) :=
  ⟨rfl, fun _ => ⟨rfl, rfl⟩⟩

/-- C5: with the catalog present but the identifier unknown, the source never
raises `RuleNotFound`: its second guard re-checks catalog presence (a
copy-paste slip), so the failure is the JS `TypeError` of reading
`localizedRule.titre` on `undefined` — a different error than the claimed
`RuleNotFound(dottedName)`. -/
theorem C5_unknown_rule_eval :
    regleLocaliseeSelector (some wRulesSmall) "unknown" =
      Except.error (Err.typeError "unknown") ∧
    Err.typeError "unknown" ≠ Err.ruleNotFound "unknown" :=
  ⟨rfl, by decide⟩

/-- C6: the payer indicator is the first defined value among the four
`dû par` fallback paths in source order; the full `nodeValue` goes to the
employee share exactly when that indicator is `salarié`, and otherwise
(including when no path is defined) to the employer share, the other share
being 0. -/
theorem C6_payer_attribution (loc : String → Except Err Regle)
    (v : VariableWithCotisation) (c : Cotisation)
    (h : variableToCotisation loc v = Except.ok c) :
    duParSelector v =
      ([v.cotisation.duPar, v.taxe.duPar, v.explanation.cotisation.duPar,
        v.explanation.taxe.duPar].filterMap id).head? ∧
    (duParSelector v = some DuPar.salarie →
      c.montant.partSalariale = v.nodeValue ∧ c.montant.partPatronale = 0) ∧
    (duParSelector v ≠ some DuPar.salarie →
      c.montant.partPatronale = v.nodeValue ∧ c.montant.partSalariale = 0) := by
  constructor
  · rfl
  simp only [variableToCotisation, Bind.bind, Except.bind] at h
  cases hl : loc v.dottedName with
  | error e =>
    rw [hl] at h
    simp at h
  | ok r =>
    rw [hl] at h
    simp only [pure, Except.pure, Except.ok.injEq] at h
    subst h
    constructor
    · intro hd
      simp [mergeCotisations, BLANK_COTISATION, hd]
    · intro hd
      simp [mergeCotisations, BLANK_COTISATION, hd]

theorem C6_payer_attribution_witness :
    (wCotSal.montant.partSalariale = wVarSal.nodeValue ∧
      wCotSal.montant.partPatronale = 0) ∧
    (wCotPat.montant.partPatronale = wVarPat.nodeValue ∧
      wCotPat.montant.partSalariale = 0) :=
  ⟨(C6_payer_attribution (regleLocaliseeSelector (some wRulesSmall)) wVarSal
      wCotSal (by rfl)).2.1 (by rfl),
   (C6_payer_attribution (regleLocaliseeSelector (some wRulesSmall)) wVarPat
      wCotPat (by rfl)).2.2 (by decide)⟩

/-- C7: the branch is the first defined value among the four `branche`
fallback paths in source order, defaulting to `autres`; in particular a
variable whose only defined branch path is `explanation.taxe.branche =
logement` is classified under `logement`, and one with no branch path at all
under `autres`. -/
theorem C7_branche_fallback (v : VariableWithCotisation) :
    brancheSelector v =
      (([v.cotisation.branche, v.taxe.branche,
         v.explanation.cotisation.branche,
         v.explanation.taxe.branche].filterMap id).head?).getD
        Branche.autres ∧
    (v.cotisation.branche = none → v.taxe.branche = none →
      v.explanation.cotisation.branche = none →
      v.explanation.taxe.branche = some Branche.logement →
      brancheSelector v = Branche.logement) ∧
    (v.cotisation.branche = none → v.taxe.branche = none →
      v.explanation.cotisation.branche = none →
      v.explanation.taxe.branche = none →
      brancheSelector v = Branche.autres) := by
  refine ⟨rfl, ?_, ?_⟩ <;>
  · intro h1 h2 h3 h4
    simp [brancheSelector, h1, h2, h3, h4]

/-- A raw variable whose only branch information sits at
`explanation.taxe.branche = logement`. -/
def wVarLogement : VariableWithCotisation :=
  { dottedName := "c2", nodeValue := 3,
    cotisation := { duPar := none, branche := none },
    taxe := { duPar := none, branche := none },
    explanation := { cotisation := { duPar := none, branche := none },
                     taxe := { duPar := none,
                               branche := some Branche.logement } } }

/-- A raw variable with no branch information at all. -/
def wVarNoBranche : VariableWithCotisation :=
  { dottedName := "c3", nodeValue := 4,
    cotisation := { duPar := none, branche := none },
    taxe := { duPar := none, branche := none },
    explanation := { cotisation := { duPar := none, branche := none },
                     taxe := { duPar := none, branche := none } } }

theorem C7_branche_fallback_witness :
    brancheSelector wVarLogement = Branche.logement ∧
    brancheSelector wVarNoBranche = Branche.autres :=
  ⟨(C7_branche_fallback wVarLogement).2.1 rfl rfl rfl rfl,
   (C7_branche_fallback wVarNoBranche).2.2 rfl rfl rfl rfl⟩

lemma regleLocalisee_error_kinds (fr : Option FlatRules) (d : String)
    (e : Err) (h : regleLocaliseeSelector fr d = Except.error e) :
    e = Err.missingRuleCatalog ∨ e = Err.typeError d := by
  cases fr with
  | none =>
    simp only [regleLocaliseeSelector] at h
    exact Or.inl (Except.error.inj h).symm
  | some rules =>
    simp only [regleLocaliseeSelector] at h
    cases hf : findRuleByDottedName rules d with
    | none =>
      rw [hf] at h
      exact Or.inr (Except.error.inj h).symm
    | some r =>
      rw [hf] at h
      simp at h

lemma regleAvecMontant_cache (a : Analysis) (loc : String → Except Err Regle)
    (d : String) (node : EvaluatedNode) (hn : lookupCache a d = some node) :
    regleAvecMontantSelector (some a) loc d =
      (loc d).map (fun r =>
        (⟨r.nom, r.lien, jsNumOr node.nodeValue 0⟩ : RegleAvecMontant)) := by
  simp only [regleAvecMontantSelector, hn]
  cases loc d <;> rfl

lemma regleAvecMontant_targets (a : Analysis)
    (loc : String → Except Err Regle) (d : String) (target : Target)
    (hn : lookupCache a d = none)
    (ht : a.targets.find? (fun t => t.dottedName == d) = some target) :
    regleAvecMontantSelector (some a) loc d =
      (loc d).map (fun r =>
        (⟨r.nom, r.lien, jsNumOr target.nodeValue 0⟩ : RegleAvecMontant)) := by
  simp only [regleAvecMontantSelector, hn, ht]
  cases loc d <;> rfl

lemma regleAvecMontant_notfound (a : Analysis)
    (loc : String → Except Err Regle) (d : String)
    (hn : lookupCache a d = none)
    (ht : a.targets.find? (fun t => t.dottedName == d) = none) :
    regleAvecMontantSelector (some a) loc d =
      Except.error (Err.ruleNotFoundInAnalysis d) := by
  simp only [regleAvecMontantSelector, hn, ht, Option.map_none']

/-- C9: amount resolution prefers the analysis cache, falls back to the
target list only when the cache lacks the name, fails with
`ruleNotFoundInAnalysis` exactly when neither has it, and resolves a found
node with an absent or falsy numeric value to amount 0 without error. -/
theorem C9_amount_resolution (a : Analysis) (flatRules : Option FlatRules)
    (d : String) :
    (∀ node, lookupCache a d = some node →
      regleAvecMontantSelector (some a) (regleLocaliseeSelector flatRules) d =
        (regleLocaliseeSelector flatRules d).map
          (fun r =>
            (⟨r.nom, r.lien, jsNumOr node.nodeValue 0⟩ : RegleAvecMontant))) ∧
    (∀ target, lookupCache a d = none →
      a.targets.find? (fun t => t.dottedName == d) = some target →
      regleAvecMontantSelector (some a) (regleLocaliseeSelector flatRules) d =
        (regleLocaliseeSelector flatRules d).map
          (fun r =>
            (⟨r.nom, r.lien, jsNumOr target.nodeValue 0⟩ : RegleAvecMontant))) ∧
    (regleAvecMontantSelector (some a) (regleLocaliseeSelector flatRules) d =
        Except.error (Err.ruleNotFoundInAnalysis d) ↔
      lookupCache a d = none ∧
        a.targets.find? (fun t => t.dottedName == d) = none) ∧
    (∀ node r, lookupCache a d = some node →
      (node.nodeValue = none ∨ node.nodeValue = some 0) →
      regleLocaliseeSelector flatRules d = Except.ok r →
      regleAvecMontantSelector (some a) (regleLocaliseeSelector flatRules) d =
        Except.ok (⟨r.nom, r.lien, 0⟩ : RegleAvecMontant)) := by
  refine ⟨fun node hn => regleAvecMontant_cache a _ d node hn,
    fun target hn ht => regleAvecMontant_targets a _ d target hn ht,
    ⟨?_, fun hcase => regleAvecMontant_notfound a _ d hcase.1 hcase.2⟩,
    ?_⟩
  · intro h
    cases hn : lookupCache a d with
    | some node =>
      rw [regleAvecMontant_cache a _ d node hn] at h
      cases hl : regleLocaliseeSelector flatRules d with
      | ok r =>
        rw [hl] at h
        simp [Except.map] at h
      | error e =>
        rw [hl] at h
        simp only [Except.map] at h
        have he := Except.error.inj h
        rcases regleLocalisee_error_kinds flatRules d e hl with h1 | h1 <;>
          simp [h1] at he
    | none =>
      cases ht : a.targets.find? (fun t => t.dottedName == d) with
      | some target =>
        rw [regleAvecMontant_targets a _ d target hn ht] at h
        cases hl : regleLocaliseeSelector flatRules d with
        | ok r =>
          rw [hl] at h
          simp [Except.map] at h
        | error e =>
          rw [hl] at h
          simp only [Except.map] at h
          have he := Except.error.inj h
          rcases regleLocalisee_error_kinds flatRules d e hl with h1 | h1 <;>
            simp [h1] at he
      | none => exact ⟨rfl, rfl⟩
  · intro node r hn hv hl
    rw [regleAvecMontant_cache a _ d node hn, hl]
    rcases hv with hv | hv <;> simp [Except.map, hv, jsNumOr]

/-- A cached node carrying no numeric value. -/
def wNodeNoValue : EvaluatedNode :=
  { nodeValue := none, formuleExplanations := none }

/-- An analysis whose cache holds `c0` with no numeric value. -/
def wAnalysisNoValue : Analysis :=
  { cache := [("c0", wNodeNoValue)], targets := [] }

/-- A catalog resolving `c0`. -/
def wRulesC0 : FlatRules := [("c0", { nom := "C zero", titre := none })]

theorem C9_amount_resolution_witness :
    regleAvecMontantSelector (some wAnalysisNoValue)
        (regleLocaliseeSelector (some wRulesC0)) "c0" =
      Except.ok { nom := "C zero", lien := "/règle/c0", montant := 0 } :=
  (C9_amount_resolution wAnalysisNoValue (some wRulesC0) "c0").2.2.2
    wNodeNoValue { nom := "C zero", lien := "/règle/c0" } (by rfl)
    (Or.inl rfl) (by rfl)

lemma varToCot_noCatalog (v : VariableWithCotisation) :
    variableToCotisation (regleLocaliseeSelector none) v =
      Except.error Err.missingRuleCatalog := rfl

lemma foldl_insertKey_head (xs : List String) (k : String)
    (acc : List String) :
    ∃ t, List.foldl insertKey (k :: acc) xs = k :: t := by
  induction xs generalizing acc with
  | nil => exact ⟨acc, rfl⟩
  | cons x xs ih =>
    simp only [List.foldl_cons]
    by_cases hx : x ∈ k :: acc
    · simp only [insertKey, if_pos hx]
      exact ih acc
    · simp only [insertKey, if_neg hx, List.cons_append]
      exact ih (acc ++ [x])

lemma groupByDottedName_cons (v : VariableWithCotisation)
    (rest : List VariableWithCotisation) :
    ∃ gs, groupByDottedName (v :: rest) =
      (v :: rest.filter (fun x => x.dottedName == v.dottedName)) :: gs := by
  unfold groupByDottedName firstOccKeys
  simp only [List.map_cons, List.foldl_cons]
  have h0 : insertKey [] v.dottedName = [v.dottedName] := by
    simp [insertKey]
  rw [h0]
  obtain ⟨t, ht⟩ :=
    foldl_insertKey_head (rest.map (fun x => x.dottedName)) v.dottedName []
  rw [ht]
  refine ⟨t.map (fun k => (v :: rest).filter (fun x => x.dottedName == k)),
    ?_⟩
  simp only [List.map_cons]
  congr 1
  simp [List.filter_cons]

lemma mergedCotisations_noCatalog_empty (a : Analysis)
    (h : extractVariables a = []) :
    mergedCotisations a (regleLocaliseeSelector none) = Except.ok [] := by
  unfold mergedCotisations
  rw [h]
  rfl

lemma mergedCotisations_noCatalog_cons (a : Analysis)
    (v : VariableWithCotisation) (rest : List VariableWithCotisation)
    (h : extractVariables a = v :: rest) :
    mergedCotisations a (regleLocaliseeSelector none) =
      Except.error Err.missingRuleCatalog := by
  unfold mergedCotisations
  rw [h]
  obtain ⟨gs, hgs⟩ := groupByDottedName_cons v rest
  rw [hgs, List.mapM_cons]
  simp [List.mapM.loop, varToCot_noCatalog, Bind.bind, Except.bind]

/-- C8 counterexample: with an absent Rule Catalog and an analysis lacking
the employee contributions aggregate, `buildPayslip` fails with
`ruleNotFoundInAnalysis`, not with `missingRuleCatalog` as claimed — its
analysis-cache lookups precede the catalog-presence check, which only runs
inside rule localization. -/
theorem C8_missing_catalog_counterexample :
    analysisToFicheDePaie { cache := [], targets := [] } none =
      Except.error (Err.ruleNotFoundInAnalysis
        "contrat salarié . cotisations salariales") ∧
    Err.ruleNotFoundInAnalysis "contrat salarié . cotisations salariales" ≠
      Err.missingRuleCatalog :=
  ⟨rfl, by decide⟩

/-- C8 amended: with an absent Rule Catalog no payslip is ever produced —
the call always fails, with `missingRuleCatalog` when a rule localization is
reached (some contribution variable exists, or the employee aggregate
resolves in the analysis), and with `ruleNotFoundInAnalysis` of the employee
aggregate name when the analysis has neither contribution variables nor that
aggregate; analysis lookups happen before either failure. -/
theorem C8_amended_no_payslip_without_catalog (a : Analysis) :
    analysisToFicheDePaie a none = Except.error Err.missingRuleCatalog ∨
    analysisToFicheDePaie a none =
      Except.error (Err.ruleNotFoundInAnalysis
        "contrat salarié . cotisations salariales") := by
  cases hv : extractVariables a with
  | cons v rest =>
    left
    have hc : analysisToCotisations a (regleLocaliseeSelector none) =
        Except.error Err.missingRuleCatalog := by
      unfold analysisToCotisations
      rw [mergedCotisations_noCatalog_cons a v rest hv]
      rfl
    simp [analysisToFicheDePaie, hc, Bind.bind, Except.bind]
  | nil =>
    have hcot : analysisToCotisations a (regleLocaliseeSelector none) =
        Except.ok (groupByBranche []) := by
      unfold analysisToCotisations
      rw [mergedCotisations_noCatalog_empty a hv]
      rfl
    cases hn : lookupCache a "contrat salarié . cotisations salariales" with
    | some node =>
      left
      have hsel : regleAvecMontantSelector (some a)
          (regleLocaliseeSelector none)
          "contrat salarié . cotisations salariales" =
          Except.error Err.missingRuleCatalog := by
        rw [regleAvecMontant_cache a _ _ node hn]
        rfl
      simp [analysisToFicheDePaie, hcot, hsel, Bind.bind, Except.bind]
    | none =>
      cases ht : a.targets.find? (fun t =>
          t.dottedName == "contrat salarié . cotisations salariales") with
      | some target =>
        left
        have hsel : regleAvecMontantSelector (some a)
            (regleLocaliseeSelector none)
            "contrat salarié . cotisations salariales" =
            Except.error Err.missingRuleCatalog := by
          rw [regleAvecMontant_targets a _ _ target hn ht]
          rfl
        simp [analysisToFicheDePaie, hcot, hsel, Bind.bind, Except.bind]
      | none =>
        right
        have hsel := regleAvecMontant_notfound a
          (regleLocaliseeSelector none)
          "contrat salarié . cotisations salariales" hn ht
        simp [analysisToFicheDePaie, hcot, hsel, Bind.bind, Except.bind]

lemma bind_eq_ok {e a b : Type} {x : Except e a} {f : a → Except e b}
    {v : b} (h : x >>= f = Except.ok v) :
    ∃ w, x = Except.ok w ∧ f w = Except.ok v := by
  cases x with
  | error err => exact absurd h (by simp [Bind.bind, Except.bind])
  | ok w => exact ⟨w, rfl, by simpa [Bind.bind, Except.bind] using h⟩

/-- C1: whenever assembly succeeds, `totalCotisations.partPatronale` is the
resolved employer-contributions aggregate amount minus the resolved
reductions amount, and `totalCotisations.partSalariale` is the resolved
employee-contributions aggregate amount. -/
theorem C1_total_contributions (analysis : Analysis)
    (flatRules : Option FlatRules) (f : FicheDePaie)
    (sal pat red : RegleAvecMontant)
    (h : analysisToFicheDePaie analysis flatRules = Except.ok f)
    (hsal : regleAvecMontantSelector (some analysis)
      (regleLocaliseeSelector flatRules)
      "contrat salarié . cotisations salariales" = Except.ok sal)
    (hpat : regleAvecMontantSelector (some analysis)
      (regleLocaliseeSelector flatRules)
      "contrat salarié . cotisations patronales" = Except.ok pat)
    (hred : regleAvecMontantSelector (some analysis)
      (regleLocaliseeSelector flatRules)
      "contrat salarié . réductions de cotisations" = Except.ok red) :
    f.totalCotisations.partPatronale = pat.montant - red.montant ∧
    f.totalCotisations.partSalariale = sal.montant := by
  simp only [analysisToFicheDePaie] at h
  obtain ⟨cot, hc, h⟩ := bind_eq_ok h
  obtain ⟨sal2, hsal2, h⟩ := bind_eq_ok h
  obtain ⟨pat2, hpat2, h⟩ := bind_eq_ok h
  obtain ⟨red2, hred2, h⟩ := bind_eq_ok h
  obtain ⟨v4, h4, h⟩ := bind_eq_ok h
  obtain ⟨v5, h5, h⟩ := bind_eq_ok h
  obtain ⟨v6, h6, h⟩ := bind_eq_ok h
  obtain ⟨v7, h7, h⟩ := bind_eq_ok h
  obtain ⟨v8, h8, h⟩ := bind_eq_ok h
  obtain ⟨v9, h9, h⟩ := bind_eq_ok h
  obtain ⟨v10, h10, h⟩ := bind_eq_ok h
  obtain rfl : sal2 = sal := Except.ok.inj (hsal2.symm.trans hsal)
  obtain rfl : pat2 = pat := Except.ok.inj (hpat2.symm.trans hpat)
  obtain rfl : red2 = red := Except.ok.inj (hred2.symm.trans hred)
  simp only [pure, Except.pure, Except.ok.injEq] at h
  subst h
  exact ⟨rfl, rfl⟩

/-- A cache node holding value `k` and no explanation subtree. -/
def wNodeOf (k : Int) : EvaluatedNode :=
  { nodeValue := some k, formuleExplanations := none }

/-- A catalog resolving all ten dotted names the assembler uses. -/
def wRulesFull : FlatRules :=
  [("contrat salarié . cotisations salariales",
    { nom := "cotisations salariales", titre := none }),
   ("contrat salarié . cotisations patronales",
    { nom := "cotisations patronales", titre := none }),
   ("contrat salarié . réductions de cotisations",
    { nom := "réductions de cotisations", titre := none }),
   ("contrat salarié . salaire . brut de base",
    { nom := "brut de base", titre := none }),
   ("contrat salarié . avantages en nature . montant",
    { nom := "avantages en nature", titre := none }),
   ("contrat salarié . salaire . brut",
    { nom := "salaire brut", titre := none }),
   ("contrat salarié . salaire . total",
    { nom := "salaire total", titre := none }),
   ("contrat salarié . salaire . net",
    { nom := "salaire net", titre := none }),
   ("contrat salarié . salaire . net imposable",
    { nom := "net imposable", titre := none }),
   ("contrat salarié . salaire . net à payer",
    { nom := "net à payer", titre := none })]

/-- An analysis whose cache resolves all ten names (employee aggregate 40,
employer aggregate 100, reductions 15) and carries no contribution
variables. -/
def wAnalysisFull : Analysis :=
  { cache := [("contrat salarié . cotisations salariales", wNodeOf 40),
              ("contrat salarié . cotisations patronales", wNodeOf 100),
              ("contrat salarié . réductions de cotisations", wNodeOf 15),
              ("contrat salarié . salaire . brut de base", wNodeOf 1800),
              ("contrat salarié . avantages en nature . montant", wNodeOf 50),
              ("contrat salarié . salaire . brut", wNodeOf 2000),
              ("contrat salarié . salaire . total", wNodeOf 2100),
              ("contrat salarié . salaire . net", wNodeOf 1600),
              ("contrat salarié . salaire . net imposable", wNodeOf 1650),
              ("contrat salarié . salaire . net à payer", wNodeOf 1550)],
    targets := [] }

/-- The payslip assembled from `wAnalysisFull` and `wRulesFull`. -/
def wFiche : FicheDePaie :=
  { salaireBrut :=
      { nom := "salaire brut",
        lien := "/règle/contrat salarié . salaire . brut",
        montant := 2000 }
    avantagesEnNature :=
      { nom := "avantages en nature",
        lien := "/règle/contrat salarié . avantages en nature . montant",
        montant := 50 }
    salaireDeBase :=
      { nom := "brut de base",
        lien := "/règle/contrat salarié . salaire . brut de base",
        montant := 1800 }
    reductionsDeCotisations :=
      { nom := "réductions de cotisations",
        lien := "/règle/contrat salarié . réductions de cotisations",
        montant := 15 }
    cotisations := [(Branche.sante, none),
                    (Branche.accidentsDuTravail, none),
                    (Branche.retraite, none),
                    (Branche.famille, none),
                    (Branche.assuranceChomage, none),
                    (Branche.logement, none),
                    (Branche.autres, none)]
    totalCotisations := { partSalariale := 40, partPatronale := 85 }
    salaireCharge :=
      { nom := "salaire total",
        lien := "/règle/contrat salarié . salaire . total",
        montant := 2100 }
    salaireNet :=
      { nom := "salaire net",
        lien := "/règle/contrat salarié . salaire . net",
        montant := 1600 }
    salaireNetImposable :=
      { nom := "net imposable",
        lien := "/règle/contrat salarié . salaire . net imposable",
        montant := 1650 }
    salaireNetAPayer :=
      { nom := "net à payer",
        lien := "/règle/contrat salarié . salaire . net à payer",
        montant := 1550 } }

theorem C1_total_contributions_witness :
    wFiche.totalCotisations.partPatronale = 100 - 15 ∧
    wFiche.totalCotisations.partSalariale = 40 :=
  C1_total_contributions wAnalysisFull (some wRulesFull) wFiche
    ⟨"cotisations salariales",
      "/règle/contrat salarié . cotisations salariales", 40⟩
    ⟨"cotisations patronales",
      "/règle/contrat salarié . cotisations patronales", 100⟩
    ⟨"réductions de cotisations",
      "/règle/contrat salarié . réductions de cotisations", 15⟩
    (by rfl) (by rfl) (by rfl) (by rfl)
